import Mathlib

/-!
# Verification of `fit_mask_to_image.py` (DazzleNodes/fit-mask-to-image)

Shallow embedding of the `FitMaskToImage` pipeline from
`src/py/fit_mask_to_image.py`.  Tensors are modelled as a shape (list of
axis sizes) together with a flat row-major data list of rationals
(floating-point values are modelled as ℚ; every operation the claims touch
is exact on the inputs considered, so no rounding model is needed).

Python exceptions become an `Err` inductive: the spec's taxonomy names the
explicit `raise ValueError` sites (`shapeError`, `channelError`,
`dimensionMismatchError`, `latentFormatError`); failures raised inside the
torch library itself (tuple-unpack arity errors, `torch.cat` size
mismatches, unsupported interpolation setups) are `runtimeError`.
-/

namespace FitMask

/-- Kinds of failure the pipeline can signal.  The first four correspond to
the explicit `raise ValueError(...)` sites of the source (named as in the
spec's error taxonomy); `runtimeError` stands for errors raised inside the
numeric library (e.g. `torch.cat` shape mismatch) or by Python itself. -/
inductive Err where
  | shapeError
  | channelError
  | dimensionMismatchError
  | latentFormatError
  | runtimeError
deriving DecidableEq, Repr

/-- A tensor: list of axis sizes plus flat row-major data.
Well-formedness (`data.length = shape.prod`) is not baked in; it is a
hypothesis where a theorem needs it. -/
structure Tensor where
  shape : List ℕ
  data : List ℚ
deriving DecidableEq, Repr

instance {ε α : Type} [DecidableEq ε] [DecidableEq α] :
    DecidableEq (Except ε α) := fun a b =>
  match a, b with
  | .ok x, .ok y =>
      if h : x = y then .isTrue (by rw [h])
      else .isFalse (fun hh => h (by cases hh; rfl))
  | .error e, .error f =>
      if h : e = f then .isTrue (by rw [h])
      else .isFalse (fun hh => h (by cases hh; rfl))
  | .ok _, .error _ => .isFalse (fun hh => by cases hh)
  | .error _, .ok _ => .isFalse (fun hh => by cases hh)

/-- `t.wf`: the flat data has exactly one entry per logical element. -/
def Tensor.wf (t : Tensor) : Prop := t.data.length = t.shape.prod

instance (t : Tensor) : Decidable t.wf := by unfold Tensor.wf; infer_instance

/-- Build a tensor of the given shape whose flat entry at position `i` is
`f i` (row-major).  All element-wise torch primitives below are phrased
through `build`. -/
def build (shape : List ℕ) (f : ℕ → ℚ) : Tensor :=
  ⟨shape, (List.range shape.prod).map f⟩

/-- Scalar clamp to [0,1]: `torch.clamp(x, 0.0, 1.0)`. -/
def clamp1 (v : ℚ) : ℚ := min 1 (max 0 v)

/-- `torch.clamp(t, 0.0, 1.0)`: element-wise clamp, shape unchanged. -/
def tclamp (t : Tensor) : Tensor := ⟨t.shape, t.data.map clamp1⟩

/-- `t.unsqueeze(0)`: new leading axis of size 1.  Row-major flat data is
unchanged by inserting a size-1 axis. -/
def unsqueeze0 (t : Tensor) : Tensor := ⟨1 :: t.shape, t.data⟩

/-- `t.unsqueeze(-1)`: new trailing axis of size 1. -/
def unsqueezeLast (t : Tensor) : Tensor := ⟨t.shape ++ [1], t.data⟩

/-- `t.unsqueeze(1)`: size-1 axis inserted after the first axis. -/
def unsqueeze1 (t : Tensor) : Tensor :=
  match t.shape with
  | b :: rest => ⟨b :: 1 :: rest, t.data⟩
  | [] => t

/-- `t.squeeze(1)`: remove axis 1 when its size is 1 (torch leaves the
tensor unchanged otherwise). -/
def squeeze1 (t : Tensor) : Tensor :=
  match t.shape with
  | b :: 1 :: rest => ⟨b :: rest, t.data⟩
  | _ => t

/-- `t[:, :, :, k]` on a rank-4 tensor: select channel `k`.
(Only applied by the source after checking `k` is in range.) -/
def selectLast (t : Tensor) (k : ℕ) : Tensor :=
  match t.shape with
  | [b, h, w, c] => build [b, h, w] (fun r => t.data.getD (r * c + k) 0)
  | _ => t

/-- `t[:, :, :, :3]` on a rank-4 tensor: keep the first `min c 3` channels
(Python slicing clamps the stop index to the axis size). -/
def sliceLast3 (t : Tensor) : Tensor :=
  match t.shape with
  | [b, h, w, c] =>
      let c' := min c 3
      build [b, h, w, c'] (fun i => t.data.getD ((i / c') * c + i % c') 0)
  | _ => t

/-- `t.repeat(1, 1, 1, 3)` on a rank-4 tensor: tile the last axis three
times, so output channel `j` reads input channel `j % c`. -/
def repeatLast3 (t : Tensor) : Tensor :=
  match t.shape with
  | [b, h, w, c] =>
      build [b, h, w, 3 * c]
        (fun i => t.data.getD ((i / (3 * c)) * c + (i % (3 * c)) % c) 0)
  | _ => t

/-- `torch.cat([a, b], dim=-1)` for two rank-4 tensors: all axes but the
last must agree exactly (torch.cat does NOT broadcast), else a runtime
error is raised. -/
def cat4last (a b : Tensor) : Except Err Tensor :=
  match a.shape, b.shape with
  | [ab, ah, aw, ac], [bb, bh, bw, bc] =>
      if ab = bb ∧ ah = bh ∧ aw = bw then
        .ok (build [ab, ah, aw, ac + bc] (fun i =>
          let t := i % (ac + bc)
          let r := i / (ac + bc)
          if t < ac then a.data.getD (r * ac + t) 0
          else b.data.getD (r * bc + (t - ac)) 0))
      else .error .runtimeError
  | _, _ => .error .runtimeError

/-- `t.permute(0, 3, 1, 2)`: (B,H,W,C) → (B,C,H,W). -/
def permute0312 (t : Tensor) : Tensor :=
  match t.shape with
  | [b, h, w, c] =>
      build [b, c, h, w] (fun i =>
        let wi := i % w; let r1 := i / w
        let hi := r1 % h; let r2 := r1 / h
        let ci := r2 % c; let bi := r2 / c
        t.data.getD (((bi * h + hi) * w + wi) * c + ci) 0)
  | _ => t

/-- `t.permute(0, 2, 3, 1)`: (B,C,H,W) → (B,H,W,C). -/
def permute0231 (t : Tensor) : Tensor :=
  match t.shape with
  | [b, c, h, w] =>
      build [b, h, w, c] (fun i =>
        let ci := i % c; let r1 := i / c
        let wi := r1 % w; let r2 := r1 / w
        let hi := r2 % h; let bi := r2 / h
        t.data.getD (((bi * c + ci) * h + hi) * w + wi) 0)
  | _ => t

/-- `torch.nn.functional.interpolate(t, size=(oh, ow), mode=mode)` on a
rank-4 (B,C,H,W) tensor.  Only the `"nearest-exact"` mode — the only one
this repository ever passes — is modelled: source row for output row `oh`
is `min ⌊(oh + 1/2)·H/OH⌋ (H-1)`, likewise for columns.  Degenerate sizes
and other modes raise inside the library. -/
def interpolate (t : Tensor) (oh ow : ℕ) (mode : String) : Except Err Tensor :=
  if mode = "nearest-exact" then
    match t.shape with
    | [b, c, h, w] =>
        if 0 < h ∧ 0 < w ∧ 0 < oh ∧ 0 < ow then
          .ok (build [b, c, oh, ow] (fun i =>
            let wi := i % ow; let r1 := i / ow
            let hi := r1 % oh; let r2 := r1 / oh
            let ci := r2 % c; let bi := r2 / c
            let sh := min ((2 * hi + 1) * h / (2 * oh)) (h - 1)
            let sw := min ((2 * wi + 1) * w / (2 * ow)) (w - 1)
            t.data.getD (((bi * c + ci) * h + sh) * w + sw) 0))
        else .error .runtimeError
    | _ => .error .runtimeError
  else .error .runtimeError

/-! ## The pipeline methods, translated one-for-one from the source. -/

/-- `FitMaskToImage._extract_dimensions`: read (height, width) of a rank-4
image; any other rank raises the "Expected 4D image tensor" ValueError
(the spec's `ShapeError`). -/
def extractDimensions (image : Tensor) : Except Err (ℕ × ℕ) :=
  match image.shape with
  | [_, h, w, _] => .ok (h, w)
  | _ => .error .shapeError

/-- `FitMaskToImage._get_mask_dimensions`. -/
def getMaskDimensions (mask : Tensor) : Except Err (ℕ × ℕ) :=
  match mask.shape with
  | [_, h, w, _] => .ok (h, w)
  | [_, h, w] => .ok (h, w)
  | [h, w] => .ok (h, w)
  | _ => .error .shapeError

/-- `FitMaskToImage._mask_to_image`: normalize mask rank to 4 (B,H,W,1)
then clamp values to [0,1]. -/
def maskToImage (mask : Tensor) : Except Err Tensor :=
  if mask.shape.length = 2 then .ok (tclamp (unsqueezeLast (unsqueeze0 mask)))
  else if mask.shape.length = 3 then .ok (tclamp (unsqueezeLast mask))
  else if mask.shape.length = 4 then .ok (tclamp mask)
  else .error .shapeError

/-- `FitMaskToImage._scale_image`: no-op when the spatial size already
matches, else permute → interpolate → permute back. -/
def scaleImage (image : Tensor) (targetWidth targetHeight : ℕ)
    (method : String) : Except Err Tensor :=
  match image.shape with
  | [_, currentHeight, currentWidth, _] =>
      if currentHeight = targetHeight ∧ currentWidth = targetWidth then
        .ok image
      else do
        let moved := permute0312 image
        let mode := if method = "nearest-exact" then "nearest-exact" else method
        let scaled ← interpolate moved targetHeight targetWidth mode
        .ok (permute0231 scaled)
  | _ => .error .runtimeError

/-- The source's `channel_map` dict. -/
def channelMap : List (String × ℕ) :=
  [("red", 0), ("green", 1), ("blue", 2), ("alpha", 3)]

/-- Dict lookup (first matching key). -/
def chanLookup : List (String × ℕ) → String → Option ℕ
  | [], _ => none
  | (k, v) :: rest, s => if k = s then some v else chanLookup rest s

/-- `FitMaskToImage._image_to_mask`: extract the named channel of a rank-4
tensor as a rank-3 mask, clamped to [0,1]; a single-channel tensor always
yields its sole channel. -/
def imageToMask (image : Tensor) (channel : String) : Except Err Tensor :=
  match chanLookup channelMap channel with
  | none => .error .channelError
  | some channelIdx =>
      match image.shape with
      | [b, h, w, c] =>
          if c = 1 then .ok (tclamp (selectLast ⟨[b, h, w, c], image.data⟩ 0))
          else if channelIdx < c then
            .ok (tclamp (selectLast ⟨[b, h, w, c], image.data⟩ channelIdx))
          else .error .channelError
      | _ => .error .runtimeError

/-- `FitMaskToImage._merge_channels`: check the mask's trailing shape
equals the image's (height, width), then concatenate RGB (derived per
channel count) with the mask as alpha. -/
def mergeChannels (image mask : Tensor) : Except Err Tensor :=
  match image.shape with
  | [b, h, w, c] =>
      if mask.shape.drop 1 ≠ [h, w] then .error .dimensionMismatchError
      else
        let maskExpanded := unsqueezeLast mask
        if c = 3 then cat4last ⟨[b, h, w, c], image.data⟩ maskExpanded
        else if c = 4 then
          cat4last (sliceLast3 ⟨[b, h, w, c], image.data⟩) maskExpanded
        else
          cat4last (sliceLast3 (repeatLast3 ⟨[b, h, w, c], image.data⟩))
            maskExpanded
  | _ => .error .runtimeError

/-! ## Latent structures -/

/-- A value stored in a latent dict: the "samples"/"noise_mask" entries are
tensors; other entries may hold arbitrary payloads, modelled by the extra
constructors so key-preservation is expressible. -/
inductive LVal where
  | tensor (t : Tensor)
  | str (s : String)
  | nat (n : ℕ)
deriving DecidableEq, Repr

/-- A latent structure: a Python dict, modelled as an association list. -/
abbrev Latent := List (String × LVal)

/-- Dict read: first entry with the given key. -/
def lget : Latent → String → Option LVal
  | [], _ => none
  | (k', v) :: rest, k => if k' = k then some v else lget rest k

/-- `d.copy()` followed by `d[k] = v`: replace the value at an existing
key, or append a fresh entry. -/
def lset (l : Latent) (k : String) (v : LVal) : Latent :=
  if (lget l k).isSome then
    l.map (fun p => if p.1 = k then (k, v) else p)
  else l ++ [(k, v)]

/-- `FitMaskToImage._scale_mask_for_latent`: no-op when the mask's spatial
size already matches, else unsqueeze a channel axis, interpolate with
nearest-exact, squeeze it back.  The source reads `mask.shape[1]` and
`mask.shape[2]`, so the mask must have rank at least 3; the pipeline only
passes rank-3 masks (a higher-rank tensor would make `interpolate` raise,
modelled by the trailing-axes guard). -/
def scaleMaskForLatent (mask : Tensor) (targetHeight targetWidth : ℕ) :
    Except Err Tensor :=
  match mask.shape with
  | _ :: currentHeight :: currentWidth :: rest =>
      if currentHeight = targetHeight ∧ currentWidth = targetWidth then
        .ok mask
      else if rest = [] then do
        let scaled ← interpolate (unsqueeze1 mask) targetHeight targetWidth
          "nearest-exact"
        .ok (squeeze1 scaled)
      else .error .runtimeError
  | _ => .error .runtimeError

/-- `FitMaskToImage._apply_mask_to_latent`: require a "samples" entry,
read the latent spatial size from its axes 2 and 3, scale the mask to that
size, and return a copy of the dict with "noise_mask" set.  A "samples"
entry that is not a rank-≥4 tensor fails inside the library. -/
def applyMaskToLatent (latent : Latent) (mask : Tensor) : Except Err Latent :=
  match lget latent "samples" with
  | none => .error .latentFormatError
  | some (.tensor samples) =>
      match samples.shape.get? 2, samples.shape.get? 3 with
      | some latentHeight, some latentWidth => do
          let maskForLatent ← scaleMaskForLatent mask latentHeight latentWidth
          .ok (lset latent "noise_mask" (.tensor maskForLatent))
      | _, _ => .error .runtimeError
  | some _ => .error .runtimeError

/-- The diagnostic summary of `FitMaskToImage._generate_info`, modelled as
a structure carrying the quantities the string interpolates (the f-string
layout itself carries no behavioural contract). -/
structure Info where
  maskW : ℕ
  maskH : ℕ
  targetW : ℕ
  targetH : ℕ
  scaleW : ℚ
  scaleH : ℚ
  status : String
  latentApplied : Bool
deriving DecidableEq, Repr

/-- `FitMaskToImage._generate_info`: scale factors fall back to 1.0 when
the original size is 0 (guarding the division). -/
def generateInfo (originalWidth originalHeight targetWidth targetHeight : ℕ)
    (hasLatent : Bool) : Info :=
  { maskW := originalWidth
    maskH := originalHeight
    targetW := targetWidth
    targetH := targetHeight
    scaleW := if 0 < originalWidth then (targetWidth : ℚ) / originalWidth else 1
    scaleH := if 0 < originalHeight then (targetHeight : ℚ) / originalHeight else 1
    status :=
      if originalHeight = targetHeight ∧ originalWidth = targetWidth then
        "No scaling needed"
      else "Scaled successfully"
    latentApplied := hasLatent }

/-- `FitMaskToImage.fix_mask_dimensions`: the whole pipeline, steps 1–7 in
source order.  Any raised error aborts the invocation: no component of the
quadruple is produced. -/
def fixMaskDimensions (image mask : Tensor) (latent : Option Latent) :
    Except Err (Tensor × Tensor × Info × Option Latent) := do
  let (targetHeight, targetWidth) ← extractDimensions image
  let (originalHeight, originalWidth) ← getMaskDimensions mask
  let maskAsImage ← maskToImage mask
  let scaledMaskImage ← scaleImage maskAsImage targetWidth targetHeight
    "nearest-exact"
  let intermediateMask ← imageToMask scaledMaskImage "red"
  let previewImage ← mergeChannels image intermediateMask
  let fixedMask ← imageToMask previewImage "alpha"
  let maskedLatent ← match latent with
    | none => pure none
    | some l => do
        let ml ← applyMaskToLatent l fixedMask
        pure (some ml)
  let info := generateInfo originalWidth originalHeight targetWidth
    targetHeight latent.isSome
  return (fixedMask, previewImage, info, maskedLatent)

end FitMask

namespace FitMask

/-! ## Basic lemmas about the tensor primitives -/

lemma clamp1_nonneg (v : ℚ) : 0 ≤ clamp1 v :=
  le_min zero_le_one (le_max_left 0 v)

lemma clamp1_le_one (v : ℚ) : clamp1 v ≤ 1 := min_le_left 1 _

lemma clamp1_idem (v : ℚ) : clamp1 (clamp1 v) = clamp1 v := by
  unfold clamp1
  rcases le_total v 0 with h | h
  · rw [max_eq_left h]; norm_num
  · rcases le_total v 1 with h1 | h1
    · rw [max_eq_right h, min_eq_right h1, max_eq_right h, min_eq_right h1]
    · rw [max_eq_right h, min_eq_left h1]; norm_num

lemma clampData_idem (l : List ℚ) : (l.map clamp1).map clamp1 = l.map clamp1 := by
  rw [List.map_map]
  exact List.map_congr_left (fun v _ => clamp1_idem v)

/-- `clamp1` is the identity on every `getD`-read of an already-clamped
list (out-of-range reads give the default `0`, itself a fixed point). -/
lemma clamp1_getD (l : List ℚ) (hcl : l.map clamp1 = l) (r : ℕ) :
    clamp1 (l.getD r 0) = l.getD r 0 := by
  by_cases hr : r < l.length
  · have h1 : (l.map clamp1).getD r 0 = l.getD r 0 := by rw [hcl]
    have h2 : (l.map clamp1).getD r 0 = clamp1 (l.getD r 0) := by
      rw [List.getD_eq_getElem l 0 hr,
        List.getD_eq_getElem (l.map clamp1) 0 (by simpa using hr)]
      simp
    rw [← h2, h1]
  · rw [List.getD_eq_default l 0 (le_of_not_lt hr)]
    unfold clamp1; norm_num

lemma prod3 (b h w : ℕ) : ([b, h, w] : List ℕ).prod = b * h * w := by
  show b * (h * (w * 1)) = b * h * w
  ring

lemma prod4 (b h w c : ℕ) : ([b, h, w, c] : List ℕ).prod = b * h * w * c := by
  show b * (h * (w * (c * 1))) = b * h * w * c
  ring

lemma index_lt {r c t m : ℕ} (hr : r < m) (ht : t < c) : r * c + t < m * c :=
  calc r * c + t < r * c + c := by omega
  _ = (r + 1) * c := by ring
  _ ≤ m * c := Nat.mul_le_mul_right c hr

lemma build_shape (s : List ℕ) (f : ℕ → ℚ) : (build s f).shape = s := rfl

lemma getD_build (s : List ℕ) (f : ℕ → ℚ) (i : ℕ) (h : i < s.prod) :
    (build s f).data.getD i 0 = f i := by
  unfold build
  rw [List.getD_eq_getElem _ 0 (by simpa using h)]
  simp

/-- Extensionality principle used to evaluate a `build` against an expected
data list. -/
lemma build_data_eq (s : List ℕ) (f : ℕ → ℚ) (l : List ℚ)
    (hl : l.length = s.prod) (hpt : ∀ i < s.prod, f i = l.getD i 0) :
    (build s f).data = l := by
  apply List.ext_getElem
  · simp [build, hl]
  · intro i h1 h2
    have hi : i < s.prod := by simpa [build] using h1
    have : (build s f).data.getD i 0 = l.getD i 0 := by
      rw [getD_build s f i hi]; exact hpt i hi
    rwa [List.getD_eq_getElem _ 0 h1, List.getD_eq_getElem _ 0 h2] at this

/-! ## Stage lemmas -/

/-- The no-op short-circuit of `_scale_image`: matching spatial size means
the input tensor is returned as-is, before the interpolation method is even
consulted. -/
lemma scaleImage_noop (t : Tensor) (b h w c : ℕ) (method : String)
    (ht : t.shape = [b, h, w, c]) : scaleImage t w h method = .ok t := by
  unfold scaleImage
  rw [ht]
  simp

lemma maskToImage_rank2 (h w : ℕ) (d : List ℚ) :
    maskToImage ⟨[h, w], d⟩ = .ok ⟨[1, h, w, 1], d.map clamp1⟩ := by
  simp [maskToImage, unsqueeze0, unsqueezeLast, tclamp]

lemma maskToImage_rank3 (b h w : ℕ) (d : List ℚ) :
    maskToImage ⟨[b, h, w], d⟩ = .ok ⟨[b, h, w, 1], d.map clamp1⟩ := by
  simp [maskToImage, unsqueezeLast, tclamp]

lemma maskToImage_rank4 (b h w c : ℕ) (d : List ℚ) :
    maskToImage ⟨[b, h, w, c], d⟩ = .ok ⟨[b, h, w, c], d.map clamp1⟩ := by
  simp [maskToImage, tclamp]

/-- Selecting channel 0 of a single-channel tensor is the identity on the
flat data. -/
lemma selectLast0_1ch (b h w : ℕ) (d : List ℚ) (hd : d.length = b * h * w) :
    selectLast ⟨[b, h, w, 1], d⟩ 0 = ⟨[b, h, w], d⟩ := by
  unfold selectLast
  simp only
  refine congrArg₂ Tensor.mk rfl ?_
  apply build_data_eq
  · rw [hd, prod3]
  · intro i _
    simp

lemma imageToMask_1ch (b h w : ℕ) (d : List ℚ) (ch : String) (idx : ℕ)
    (hch : chanLookup channelMap ch = some idx) (hd : d.length = b * h * w) :
    imageToMask ⟨[b, h, w, 1], d⟩ ch = .ok ⟨[b, h, w], d.map clamp1⟩ := by
  unfold imageToMask
  rw [hch]
  simp [selectLast0_1ch b h w d hd, tclamp]

end FitMask

/-- C3: for every 4-axis tensor whose current (height, width) already
equals the target, Spatial Resample (`_scale_image`) returns the input
tensor unchanged — bit-identical — for any resampling method. -/
theorem FitMask.spatial_resample_noop (t : FitMask.Tensor) (b h w c : ℕ)
    (method : String) (ht : t.shape = [b, h, w, c]) :
    FitMask.scaleImage t w h method = .ok t :=
  FitMask.scaleImage_noop t b h w c method ht

/-- Witness for C3 at a concrete input: a 1×2×2×1 tensor resampled to its
own 2×2 size with method "bilinear" comes back unchanged. -/
theorem FitMask.spatial_resample_noop_witness :
    FitMask.scaleImage ⟨[1, 2, 2, 1], [0, 1, 2, 3]⟩ 2 2 "bilinear"
      = .ok ⟨[1, 2, 2, 1], [0, 1, 2, 3]⟩ :=
  FitMask.spatial_resample_noop ⟨[1, 2, 2, 1], [0, 1, 2, 3]⟩ 1 2 2 1
    "bilinear" rfl

/-- C10: the diagnostic summary's scale factors fall back to `1.0` when the
mask's original width (resp. height) is `0`, instead of dividing by zero. -/
theorem FitMask.info_zero_dim_scale_fallback (ow oh tw th : ℕ) (hl : Bool) :
    (FitMask.generateInfo 0 oh tw th hl).scaleW = 1 ∧
    (FitMask.generateInfo ow 0 tw th hl).scaleH = 1 := by
  constructor <;> simp [FitMask.generateInfo]

/-- C4: Mask-to-Image Lift normalizes masks of rank 2, 3 and 4 carrying the
same logical content to the identical 4-axis (batch, height, width, 1)
tensor, values clamped to [0,1]: rank 2 gains a leading batch axis (and the
trailing channel axis), rank 3 gains a trailing channel axis, rank 4 passes
through unchanged apart from clamping. -/
theorem FitMask.mask_to_image_rank_normalization (h w : ℕ) (d : List ℚ) :
    (FitMask.maskToImage ⟨[h, w], d⟩
        = .ok ⟨[1, h, w, 1], d.map FitMask.clamp1⟩) ∧
    (∀ b, FitMask.maskToImage ⟨[b, h, w], d⟩
        = .ok ⟨[b, h, w, 1], d.map FitMask.clamp1⟩) ∧
    (∀ b, FitMask.maskToImage ⟨[b, h, w, 1], d⟩
        = .ok ⟨[b, h, w, 1], d.map FitMask.clamp1⟩) ∧
    (∀ v ∈ d.map FitMask.clamp1, 0 ≤ v ∧ v ≤ 1) := by
  refine ⟨FitMask.maskToImage_rank2 h w d,
    fun b => FitMask.maskToImage_rank3 b h w d,
    fun b => FitMask.maskToImage_rank4 b h w 1 d, ?_⟩
  intro v hv
  obtain ⟨u, _, rfl⟩ := List.mem_map.mp hv
  exact ⟨FitMask.clamp1_nonneg u, FitMask.clamp1_le_one u⟩

namespace FitMask

lemma chanLookup_red : chanLookup channelMap "red" = some 0 := by decide

lemma chanLookup_alpha : chanLookup channelMap "alpha" = some 3 := by decide

lemma tclamp_build (s : List ℕ) (f : ℕ → ℚ) :
    tclamp (build s f) = build s (fun i => clamp1 (f i)) := by
  unfold tclamp build
  simp [List.map_map, Function.comp]

/-- Concatenating any 3-channel tensor with a clamped mask as channel 3 and
then extracting channel "alpha" recovers exactly the mask. -/
lemma cat_alpha (a : Tensor) (b h w : ℕ) (dm : List ℚ)
    (ha : a.shape = [b, h, w, 3])
    (hm : dm.length = b * h * w) (hcl : dm.map clamp1 = dm) :
    ∃ p, cat4last a (unsqueezeLast ⟨[b, h, w], dm⟩) = .ok p ∧
      imageToMask p "alpha" = .ok ⟨[b, h, w], dm⟩ := by
  have hb : unsqueezeLast ⟨[b, h, w], dm⟩ = (⟨[b, h, w, 1], dm⟩ : Tensor) := rfl
  rw [hb]
  unfold cat4last
  rw [ha]
  simp only [reduceCtorEq, and_self, if_true]
  refine ⟨_, rfl, ?_⟩
  unfold imageToMask
  rw [chanLookup_alpha]
  have hps : (build [b, h, w, 3 + 1] (fun i =>
      let t := i % (3 + 1)
      let r := i / (3 + 1)
      if t < 3 then a.data.getD (r * 3 + t) 0
      else dm.getD (r * 1 + (t - 3)) 0)).shape = [b, h, w, 4] := rfl
  rw [hps]
  norm_num
  unfold selectLast
  simp only
  rw [tclamp_build]
  refine congrArg₂ Tensor.mk rfl ?_
  apply build_data_eq
  · rw [hm, prod3]
  · intro i hi
    have hi' : i < b * h * w := by rwa [prod3] at hi
    have hlt : i * 4 + 3 < ([b, h, w, 3 + 1] : List ℕ).prod := by
      rw [prod4]
      exact index_lt hi' (by omega)
    rw [getD_build _ _ _ hlt]
    have h1 : (i * 4 + 3) % (3 + 1) = 3 := by omega
    have h2 : (i * 4 + 3) / (3 + 1) = i := by omega
    simp only [h1, h2]
    norm_num
    simpa [List.getD] using clamp1_getD dm hcl i

end FitMask

namespace FitMask

/-- `_merge_channels` on a 3- or 4-channel image and a matching clamped
rank-3 mask succeeds, and extracting "alpha" from the merged preview
recovers exactly the mask. -/
lemma mergeChannels_alpha (b h w c : ℕ) (di dm : List ℚ) (hc : c = 3 ∨ c = 4)
    (hm : dm.length = b * h * w) (hcl : dm.map clamp1 = dm) :
    ∃ p, mergeChannels ⟨[b, h, w, c], di⟩ ⟨[b, h, w], dm⟩ = .ok p ∧
      imageToMask p "alpha" = .ok ⟨[b, h, w], dm⟩ := by
  rcases hc with rfl | rfl
  · have h3 := cat_alpha ⟨[b, h, w, 3], di⟩ b h w dm rfl hm hcl
    simpa [mergeChannels] using h3
  · have ha : (sliceLast3 ⟨[b, h, w, 4], di⟩).shape = [b, h, w, 3] := rfl
    have h4 := cat_alpha (sliceLast3 ⟨[b, h, w, 4], di⟩) b h w dm ha hm hcl
    simpa [mergeChannels] using h4

/-- Full evaluation of the pipeline on a conforming image/mask pair whose
spatial sizes already agree: the fixed mask is the clamped, rank-normalized
input mask, and the latent stage (when supplied) is fed exactly that mask. -/
lemma pipeline_eval (b h w c : ℕ) (di dm : List ℚ) (ms : List ℕ)
    (lo : Option Latent) (hc : c = 3 ∨ c = 4)
    (hms : ms = [b, h, w] ∨ ms = [b, h, w, 1] ∨ (b = 1 ∧ ms = [h, w]))
    (hwf : dm.length = b * h * w) :
    ∃ p, fixMaskDimensions ⟨[b, h, w, c], di⟩ ⟨ms, dm⟩ lo
      = (match lo with
        | none => .ok (⟨[b, h, w], dm.map clamp1⟩, p,
            generateInfo w h w h false, none)
        | some l =>
            (applyMaskToLatent l ⟨[b, h, w], dm.map clamp1⟩).bind (fun ml =>
              .ok (⟨[b, h, w], dm.map clamp1⟩, p,
                generateInfo w h w h true, some ml))) := by
  have hcl : (dm.map clamp1).map clamp1 = dm.map clamp1 := clampData_idem dm
  have hlen : (dm.map clamp1).length = b * h * w := by simpa using hwf
  have hm2 : maskToImage ⟨ms, dm⟩ = .ok ⟨[b, h, w, 1], dm.map clamp1⟩ := by
    rcases hms with rfl | rfl | ⟨rfl, rfl⟩
    · exact maskToImage_rank3 b h w dm
    · exact maskToImage_rank4 b h w 1 dm
    · exact maskToImage_rank2 h w dm
  have hdim : getMaskDimensions ⟨ms, dm⟩ = .ok (h, w) := by
    rcases hms with rfl | rfl | ⟨rfl, rfl⟩ <;> rfl
  have hscale := scaleImage_noop ⟨[b, h, w, 1], dm.map clamp1⟩ b h w 1
    "nearest-exact" rfl
  have hred : imageToMask ⟨[b, h, w, 1], dm.map clamp1⟩ "red"
      = .ok ⟨[b, h, w], (dm.map clamp1).map clamp1⟩ :=
    imageToMask_1ch b h w _ "red" 0 chanLookup_red hlen
  rw [hcl] at hred
  obtain ⟨p, hmerge, halpha⟩ :=
    mergeChannels_alpha b h w c di (dm.map clamp1) hc hlen hcl
  refine ⟨p, ?_⟩
  unfold fixMaskDimensions
  match lo with
  | none =>
      simp [extractDimensions, hdim, hm2, hscale, hred, hmerge, halpha,
        Except.map, bind, Except.bind, Functor.map, pure, Except.pure]
  | some l =>
      rcases happ : applyMaskToLatent l ⟨[b, h, w], dm.map clamp1⟩
        with e | ml <;>
      simp [extractDimensions, hdim, hm2, hscale, hred, hmerge, halpha, happ,
        Except.map, bind, Except.bind, Functor.map, pure, Except.pure]

end FitMask

/-- C1 (amended): when the mask's spatial size already equals the image's
AND the mask's (normalized) batch equals the image's — the restriction
`torch.cat` forces; the data model's "mask batch 1, image batch > 1"
pairing instead aborts at the alpha-composite stage, see the
counterexample — the full pipeline (stages 4.2–4.5) returns as
`fixed_mask` exactly the original mask after rank normalization to
(batch, height, width) and clamping to [0,1], for masks of rank 3, rank 4,
or rank 2 (the latter normalizing to batch 1, so the image batch is 1),
against a 3- or 4-channel image. -/
theorem FitMask.fixed_mask_roundtrip_no_scaling (b h w c : ℕ)
    (di dm : List ℚ) (ms : List ℕ) (hc : c = 3 ∨ c = 4)
    (hms : ms = [b, h, w] ∨ ms = [b, h, w, 1] ∨ (b = 1 ∧ ms = [h, w]))
    (hwf : dm.length = b * h * w) :
    (FitMask.fixMaskDimensions ⟨[b, h, w, c], di⟩ ⟨ms, dm⟩ none).map
        (fun r => r.1)
      = .ok ⟨[b, h, w], dm.map FitMask.clamp1⟩ := by
  obtain ⟨p, hp⟩ :=
    FitMask.pipeline_eval b h w c di dm ms none hc hms hwf
  rw [hp]
  rfl

namespace FitMask

lemma clamp1_eq_self {v : ℚ} (h0 : 0 ≤ v) (h1 : v ≤ 1) : clamp1 v = v := by
  unfold clamp1
  rw [max_eq_right h0, min_eq_right h1]

lemma clamp1_of_le_zero {v : ℚ} (h : v ≤ 0) : clamp1 v = 0 := by
  unfold clamp1
  rw [max_eq_left h]
  exact min_eq_right zero_le_one

lemma clamp1_of_one_le {v : ℚ} (h : 1 ≤ v) : clamp1 v = 1 := by
  unfold clamp1
  rw [max_eq_right (zero_le_one.trans h)]
  exact min_eq_left h

lemma mod_mul_add {r d j : ℕ} (hj : j < d) : (r * d + j) % d = j := by
  rw [Nat.mul_add_mod']
  exact Nat.mod_eq_of_lt hj

lemma div_mul_add {r d j : ℕ} (hj : j < d) : (r * d + j) / d = r := by
  have hd : 0 < d := lt_of_le_of_lt (Nat.zero_le j) hj
  rw [mul_comm, Nat.mul_add_div hd, Nat.div_eq_of_lt hj, add_zero]

end FitMask

/-- Counterexample for C1 as frozen: a pair that conforms to the data
model — image 2×2×2×3, mask 1×2×2 with values in [0,1], spatial sizes
equal, mask batch 1 "compatible" with image batch 2 — makes the pipeline
abort at the alpha-composite stage (`torch.cat` does not broadcast the
batch axis), so `fixed_mask` is not produced at all, let alone equal to
the clamped mask. -/
theorem FitMask.fixed_mask_roundtrip_batch_cex :
    FitMask.fixMaskDimensions ⟨[2, 2, 2, 3], List.replicate 24 0⟩
        ⟨[1, 2, 2], [1, 1, 1, 1]⟩ none
      = .error .runtimeError := by
  rfl

/-- Witness for C1 (amended): a 1×2×2 mask (values 0, 1/2, 2, −1) against
a 1×2×2×3 zero image round-trips to the clamped mask (0, 1/2, 1, 0). -/
theorem FitMask.fixed_mask_roundtrip_no_scaling_witness :
    (FitMask.fixMaskDimensions ⟨[1, 2, 2, 3], List.replicate 12 0⟩
        ⟨[1, 2, 2], [0, 1/2, 2, -1]⟩ none).map (fun r => r.1)
      = .ok ⟨[1, 2, 2], [0, 1/2, 1, 0]⟩ := by
  have h := FitMask.fixed_mask_roundtrip_no_scaling 1 2 2 3
    (List.replicate 12 0) [0, 1/2, 2, -1] [1, 2, 2]
    (Or.inl rfl) (Or.inl rfl) (by decide)
  rw [h]
  norm_num [FitMask.clamp1_eq_self, FitMask.clamp1_of_le_zero,
    FitMask.clamp1_of_one_le]

/-- C6: Image-to-Mask Lower on a single-channel tensor returns the sole
channel clamped to [0,1] for every recognized channel name (in particular
"alpha"), rather than raising `ChannelError`; values already in [0,1] come
back unchanged. -/
theorem FitMask.single_channel_passthrough (b h w : ℕ) (d : List ℚ)
    (ch : String) (idx : ℕ)
    (hch : FitMask.chanLookup FitMask.channelMap ch = some idx)
    (hd : d.length = b * h * w) :
    FitMask.imageToMask ⟨[b, h, w, 1], d⟩ ch
      = .ok ⟨[b, h, w], d.map FitMask.clamp1⟩ ∧
    ((∀ v ∈ d, 0 ≤ v ∧ v ≤ 1) →
      FitMask.imageToMask ⟨[b, h, w, 1], d⟩ ch = .ok ⟨[b, h, w], d⟩) := by
  have h := FitMask.imageToMask_1ch b h w d ch idx hch hd
  refine ⟨h, fun hv => ?_⟩
  rw [h]
  have hid : d.map FitMask.clamp1 = List.map id d :=
    List.map_congr_left
      (fun v hvm => FitMask.clamp1_eq_self (hv v hvm).1 (hv v hvm).2)
  rw [hid, List.map_id]

/-- Witness for C6: a 1-channel tensor holding 7/10, requested with
channel "alpha", returns 7/10 unchanged. -/
theorem FitMask.single_channel_passthrough_witness :
    FitMask.imageToMask ⟨[1, 1, 1, 1], [7/10]⟩ "alpha"
      = .ok ⟨[1, 1, 1], [7/10]⟩ :=
  (FitMask.single_channel_passthrough 1 1 1 [7/10] "alpha" 3
    (by decide) (by decide)).2 (by norm_num)

/-- C5: on a rank-4 tensor with at least one channel, Image-to-Mask Lower
raises `ChannelError` exactly when the channel name is unrecognized or the
tensor is multi-channel with channel count ≤ the requested index; at the
boundary, "alpha" (index 3) fails on 3 channels and succeeds on 4,
returning channel 3 (clamped). -/
theorem FitMask.channel_error_exactly (b h w c : ℕ) (d : List ℚ)
    (ch : String) (hc : 1 ≤ c) :
    (FitMask.imageToMask ⟨[b, h, w, c], d⟩ ch = .error .channelError
      ↔ FitMask.chanLookup FitMask.channelMap ch = none
        ∨ ∃ idx, FitMask.chanLookup FitMask.channelMap ch = some idx
            ∧ 2 ≤ c ∧ c ≤ idx) ∧
    (FitMask.imageToMask ⟨[b, h, w, 3], d⟩ "alpha"
      = .error .channelError) ∧
    (∃ t, FitMask.imageToMask ⟨[b, h, w, 4], d⟩ "alpha" = .ok t
      ∧ t.shape = [b, h, w]
      ∧ ∀ i < b * h * w,
          t.data.getD i 0 = FitMask.clamp1 (d.getD (i * 4 + 3) 0)) := by
  refine ⟨?_, ?_, ?_⟩
  · rcases hck : FitMask.chanLookup FitMask.channelMap ch with _ | idx
    · simp [FitMask.imageToMask, hck]
    · unfold FitMask.imageToMask
      rw [hck]
      by_cases h1 : c = 1
      · subst h1
        simp only [if_pos rfl]
        constructor
        · intro hcontra
          cases hcontra
        · rintro (hnone | ⟨idx', hidx', h2, _⟩)
          · cases hnone
          · omega
      · by_cases h2 : idx < c
        · simp only [if_neg h1, if_pos h2]
          constructor
          · intro hcontra
            cases hcontra
          · rintro (hnone | ⟨idx', hidx', _, hle⟩)
            · cases hnone
            · cases hidx'
              omega
        · simp only [if_neg h1, if_neg h2]
          constructor
          · intro _
            exact Or.inr ⟨idx, rfl, by omega, by omega⟩
          · intro _
            trivial
  · unfold FitMask.imageToMask
    rw [FitMask.chanLookup_alpha]
    norm_num
  · refine ⟨FitMask.tclamp (FitMask.selectLast ⟨[b, h, w, 4], d⟩ 3),
      ?_, rfl, ?_⟩
    · unfold FitMask.imageToMask
      rw [FitMask.chanLookup_alpha]
      norm_num
    · intro i hi
      have hsel : FitMask.selectLast ⟨[b, h, w, 4], d⟩ 3
          = FitMask.build [b, h, w] (fun r => d.getD (r * 4 + 3) 0) := rfl
      rw [hsel, FitMask.tclamp_build,
        FitMask.getD_build _ _ i (by rw [FitMask.prod3]; exact hi)]

/-- Witness for C5: "alpha" against a concrete 3-channel tensor raises
`ChannelError`. -/
theorem FitMask.channel_error_exactly_witness :
    FitMask.imageToMask ⟨[1, 1, 1, 3], [0, 0, 0]⟩ "alpha"
      = .error .channelError :=
  (FitMask.channel_error_exactly 1 1 1 3 [0, 0, 0] "alpha" (by norm_num)).2.1

namespace FitMask

/-- Characterization of `torch.cat` of a (b,h,w,ac) tensor with a
(b,h,w,1) mask along the channel axis: channel `ac` of the result is the
mask, channels below `ac` read the first operand. -/
lemma cat_ok_char (da dm : List ℚ) (b h w ac : ℕ) :
    ∃ t, cat4last ⟨[b, h, w, ac], da⟩ ⟨[b, h, w, 1], dm⟩ = .ok t
      ∧ t.shape = [b, h, w, ac + 1]
      ∧ (∀ r < b * h * w, t.data.getD (r * (ac + 1) + ac) 0 = dm.getD r 0)
      ∧ (∀ r < b * h * w, ∀ j < ac,
          t.data.getD (r * (ac + 1) + j) 0 = da.getD (r * ac + j) 0) := by
  have hcat : cat4last ⟨[b, h, w, ac], da⟩ ⟨[b, h, w, 1], dm⟩
      = .ok (build [b, h, w, ac + 1] (fun i =>
          let t := i % (ac + 1)
          let r := i / (ac + 1)
          if t < ac then da.getD (r * ac + t) 0
          else dm.getD (r * 1 + (t - ac)) 0)) := by
    simp [cat4last]
  refine ⟨_, hcat, rfl, ?_, ?_⟩
  · intro r hr
    rw [getD_build _ _ _ (by rw [prod4]; exact index_lt hr (Nat.lt_succ_self ac))]
    simp only [mod_mul_add (Nat.lt_succ_self ac),
      div_mul_add (Nat.lt_succ_self ac)]
    simp
  · intro r hr j hj
    have hj1 : j < ac + 1 := Nat.lt_succ_of_lt hj
    rw [getD_build _ _ _ (by rw [prod4]; exact index_lt hr hj1)]
    simp only [mod_mul_add hj1, div_mul_add hj1]
    simp [hj]

/-- `[:, :, :, :3]` on a tensor with at least 3 channels keeps exactly the
first three. -/
lemma sliceLast3_eq (b h w c : ℕ) (d : List ℚ) (hc : 3 ≤ c) :
    sliceLast3 ⟨[b, h, w, c], d⟩
      = build [b, h, w, 3] (fun i => d.getD ((i / 3) * c + i % 3) 0) := by
  unfold sliceLast3
  simp only [min_eq_right hc]

end FitMask

/-- Counterexample for C2: a spatially matching mask of batch 1 against an
image of batch 2 makes `_merge_channels` raise a library-level error
(`torch.cat` does not broadcast the batch axis), not
`DimensionMismatchError`, and it returns no 4-channel tensor. -/
theorem FitMask.alpha_composite_broadcast_cex :
    FitMask.mergeChannels ⟨[2, 1, 1, 3], [0, 0, 0, 0, 0, 0]⟩ ⟨[1, 1, 1], [1]⟩
      = .error .runtimeError := by
  rfl

/-- C2 (amended): `_merge_channels` on a 4-axis image and a 3-axis mask
raises `DimensionMismatchError` whenever the mask's spatial size differs
from the image's; when it matches AND the mask batch equals the image
batch (a batch mismatch instead fails inside `torch.cat`) and the image
has at least one channel, the result is a 4-channel tensor whose channel 3
is the mask, and whose channels j < 3 read image channel `j % c`
(the identity for 3- and 4-channel images — the existing alpha being
discarded — and cyclic replication for any other channel count). -/
theorem FitMask.alpha_composite_contract (b h w c mb mh mw : ℕ)
    (di dm : List ℚ) :
    (¬(mh = h ∧ mw = w) →
      FitMask.mergeChannels ⟨[b, h, w, c], di⟩ ⟨[mb, mh, mw], dm⟩
        = .error .dimensionMismatchError) ∧
    (mh = h → mw = w → mb = b → 1 ≤ c →
      ∃ t, FitMask.mergeChannels ⟨[b, h, w, c], di⟩ ⟨[mb, mh, mw], dm⟩ = .ok t
        ∧ t.shape = [b, h, w, 4]
        ∧ (∀ r < b * h * w, t.data.getD (r * 4 + 3) 0 = dm.getD r 0)
        ∧ (∀ r < b * h * w, ∀ j < 3,
            t.data.getD (r * 4 + j) 0 = di.getD (r * c + j % c) 0)) := by
  constructor
  · intro hne
    unfold FitMask.mergeChannels
    simp only
    rw [if_pos (by simpa using fun h1 h2 => hne ⟨h1, h2⟩)]
  · rintro rfl rfl rfl hc1
    by_cases h3 : c = 3
    · subst h3
      obtain ⟨t, hcat, hsh, hm3, hch⟩ := FitMask.cat_ok_char di dm mb mh mw 3
      refine ⟨t, ?_, hsh, hm3, ?_⟩
      · unfold FitMask.mergeChannels
        simpa [FitMask.unsqueezeLast] using hcat
      · intro r hr j hj
        rw [hch r hr j hj, Nat.mod_eq_of_lt hj]
    · by_cases h4 : c = 4
      · subst h4
        obtain ⟨t, hcat, hsh, hm3, hch⟩ :=
          FitMask.cat_ok_char (FitMask.sliceLast3 ⟨[mb, mh, mw, 4], di⟩).data
            dm mb mh mw 3
        have hslice := FitMask.sliceLast3_eq mb mh mw 4 di (by norm_num)
        refine ⟨t, ?_, hsh, hm3, ?_⟩
        · unfold FitMask.mergeChannels
          simpa [FitMask.unsqueezeLast] using hcat
        · intro r hr j hj
          rw [hch r hr j hj, hslice,
            FitMask.getD_build _ _ _
              (by rw [FitMask.prod4]; exact FitMask.index_lt hr hj),
            FitMask.div_mul_add hj, FitMask.mod_mul_add hj,
            Nat.mod_eq_of_lt (by omega : j < 4)]
      · have hc3 : 3 ≤ 3 * c := by omega
        obtain ⟨t, hcat, hsh, hm3, hch⟩ :=
          FitMask.cat_ok_char
            (FitMask.sliceLast3
              (FitMask.repeatLast3 ⟨[mb, mh, mw, c], di⟩)).data dm mb mh mw 3
        have hrep : FitMask.repeatLast3 ⟨[mb, mh, mw, c], di⟩
            = FitMask.build [mb, mh, mw, 3 * c]
                (fun i => di.getD ((i / (3 * c)) * c + (i % (3 * c)) % c) 0) :=
          rfl
        have hslice : FitMask.sliceLast3
              (FitMask.repeatLast3 ⟨[mb, mh, mw, c], di⟩)
            = FitMask.build [mb, mh, mw, 3]
                (fun i => (FitMask.repeatLast3 ⟨[mb, mh, mw, c], di⟩).data.getD
                  ((i / 3) * (3 * c) + i % 3) 0) := by
          rw [hrep]
          exact FitMask.sliceLast3_eq mb mh mw (3 * c) _ hc3
        refine ⟨t, ?_, hsh, hm3, ?_⟩
        · unfold FitMask.mergeChannels
          have hne3 : ¬(c = 3) := h3
          have hne4 : ¬(c = 4) := h4
          simpa [FitMask.unsqueezeLast, hne3, hne4, hslice] using hcat
        · intro r hr j hj
          have hj3c : j < 3 * c := by omega
          rw [hch r hr j hj, hslice,
            FitMask.getD_build _ _ _
              (by rw [FitMask.prod4]; exact FitMask.index_lt hr hj),
            FitMask.div_mul_add hj, FitMask.mod_mul_add hj, hrep,
            FitMask.getD_build _ _ _
              (by rw [FitMask.prod4]; exact FitMask.index_lt hr hj3c),
            FitMask.div_mul_add hj3c, FitMask.mod_mul_add hj3c]

/-- Witness for C2 at concrete inputs: a 1×1×1×2 image (channels 1/10,
2/10) merged with the matching mask [1] yields channels
(1/10, 2/10, 1/10, 1) — cyclic replication plus the mask as alpha. -/
theorem FitMask.alpha_composite_contract_witness :
    (¬((2 : ℕ) = 1 ∧ (1 : ℕ) = 1) →
      FitMask.mergeChannels ⟨[1, 1, 1, 2], [1/10, 2/10]⟩ ⟨[1, 2, 1], [1]⟩
        = .error .dimensionMismatchError) ∧
    (∃ t, FitMask.mergeChannels ⟨[1, 1, 1, 2], [1/10, 2/10]⟩
          ⟨[1, 1, 1], [1]⟩ = .ok t
      ∧ t.shape = [1, 1, 1, 4]
      ∧ (∀ r < 1 * 1 * 1, t.data.getD (r * 4 + 3) 0
          = List.getD [(1 : ℚ)] r 0)
      ∧ (∀ r < 1 * 1 * 1, ∀ j < 3, t.data.getD (r * 4 + j) 0
          = List.getD [(1 : ℚ)/10, 2/10] (r * 2 + j % 2) 0)) :=
  ⟨(FitMask.alpha_composite_contract 1 1 1 2 1 2 1 [1/10, 2/10] [1]).1,
   (FitMask.alpha_composite_contract 1 1 1 2 1 1 1 [1/10, 2/10] [1]).2
     rfl rfl rfl (by norm_num)⟩

namespace FitMask

end FitMask

namespace FitMask

/-! ## Latent-dict lemmas -/

lemma lget_cons (k1 : String) (v1 : LVal) (rest : Latent) (k : String) :
    lget ((k1, v1) :: rest) k = if k1 = k then some v1 else lget rest k := rfl

lemma lget_map_set (l : Latent) (k : String) (v : LVal) :
    lget (l.map (fun p => if p.1 = k then (k, v) else p)) k
      = if (lget l k).isSome then some v else none := by
  induction l with
  | nil => simp [lget]
  | cons p rest ih =>
      obtain ⟨k1, v1⟩ := p
      rw [List.map_cons]
      by_cases hk : k1 = k
      · subst hk
        rw [show (if ((k1, v1) : String × LVal).1 = k1 then (k1, v)
            else (k1, v1)) = (k1, v) from if_pos rfl]
        rw [lget_cons, if_pos rfl, lget_cons, if_pos rfl]
        simp
      · rw [show (if ((k1, v1) : String × LVal).1 = k then (k, v)
            else (k1, v1)) = (k1, v1) from if_neg hk]
        rw [lget_cons, if_neg hk, lget_cons, if_neg hk, ih]

lemma lget_map_set_other (l : Latent) (k k' : String) (v : LVal)
    (hne : k' ≠ k) :
    lget (l.map (fun p => if p.1 = k then (k, v) else p)) k' = lget l k' := by
  induction l with
  | nil => simp [lget]
  | cons p rest ih =>
      obtain ⟨k1, v1⟩ := p
      rw [List.map_cons]
      by_cases hk : k1 = k
      · subst hk
        rw [show (if ((k1, v1) : String × LVal).1 = k1 then (k1, v)
            else (k1, v1)) = (k1, v) from if_pos rfl]
        rw [lget_cons, if_neg (fun hh => hne hh.symm),
          lget_cons, if_neg (fun hh => hne hh.symm), ih]
      · rw [show (if ((k1, v1) : String × LVal).1 = k then (k, v)
            else (k1, v1)) = (k1, v1) from if_neg hk]
        by_cases hk' : k1 = k'
        · rw [lget_cons, if_pos hk', lget_cons, if_pos hk']
        · rw [lget_cons, if_neg hk', lget_cons, if_neg hk', ih]

lemma lget_append_self (l : Latent) (k : String) (v : LVal)
    (h : lget l k = none) : lget (l ++ [(k, v)]) k = some v := by
  induction l with
  | nil => simp [lget]
  | cons p rest ih =>
      obtain ⟨k1, v1⟩ := p
      by_cases hk : k1 = k
      · rw [lget_cons, if_pos hk] at h
        cases h
      · rw [lget_cons, if_neg hk] at h
        rw [List.cons_append, lget_cons, if_neg hk, ih h]

lemma lget_append_other (l : Latent) (k k' : String) (v : LVal)
    (hne : k' ≠ k) : lget (l ++ [(k, v)]) k' = lget l k' := by
  induction l with
  | nil =>
      rw [List.nil_append, lget_cons, if_neg (fun hh => hne hh.symm)]
  | cons p rest ih =>
      obtain ⟨k1, v1⟩ := p
      by_cases hk : k1 = k'
      · rw [List.cons_append, lget_cons, if_pos hk, lget_cons, if_pos hk]
      · rw [List.cons_append, lget_cons, if_neg hk, lget_cons, if_neg hk, ih]

/-- Reading back the key just set by `lset`. -/
lemma lget_lset_self (l : Latent) (k : String) (v : LVal) :
    lget (lset l k v) k = some v := by
  unfold lset
  by_cases hs : (lget l k).isSome
  · rw [if_pos hs, lget_map_set, if_pos hs]
  · rw [if_neg hs]
    exact lget_append_self l k v (Option.not_isSome_iff_eq_none.mp hs)

/-- `lset` leaves every other key's value untouched. -/
lemma lget_lset_other (l : Latent) (k k' : String) (v : LVal)
    (hne : k' ≠ k) : lget (lset l k v) k' = lget l k' := by
  unfold lset
  by_cases hs : (lget l k).isSome
  · rw [if_pos hs]
    exact lget_map_set_other l k k' v hne
  · rw [if_neg hs]
    exact lget_append_other l k k' v hne

/-- `_scale_mask_for_latent` on a positive-size rank-3 mask always
succeeds and produces the target spatial size. -/
lemma scaleMaskForLatent_ok (mb mh mw th tw : ℕ) (dm : List ℚ)
    (h1 : 0 < mh) (h2 : 0 < mw) (h3 : 0 < th) (h4 : 0 < tw) :
    ∃ m, scaleMaskForLatent ⟨[mb, mh, mw], dm⟩ th tw = .ok m
      ∧ m.shape = [mb, th, tw] := by
  by_cases he : mh = th ∧ mw = tw
  · refine ⟨⟨[mb, mh, mw], dm⟩, ?_, by rw [he.1, he.2]⟩
    unfold scaleMaskForLatent
    simp only
    rw [if_pos he]
  · have hu : unsqueeze1 (⟨[mb, mh, mw], dm⟩ : Tensor)
        = (⟨[mb, 1, mh, mw], dm⟩ : Tensor) := rfl
    have hi : ∃ s, interpolate (⟨[mb, 1, mh, mw], dm⟩ : Tensor) th tw
          "nearest-exact" = .ok s ∧ s.shape = [mb, 1, th, tw] := by
      unfold interpolate
      rw [if_pos rfl]
      simp only
      rw [if_pos ⟨h1, h2, h3, h4⟩]
      exact ⟨_, rfl, rfl⟩
    obtain ⟨s, hs, hss⟩ := hi
    refine ⟨squeeze1 s, ?_, ?_⟩
    · unfold scaleMaskForLatent
      simp only
      rw [if_neg he, if_pos trivial, hu, hs]
      rfl
    · simp [squeeze1, hss]

end FitMask

/-- Counterexample for C7: a latent that already carries a "noise_mask"
entry (value 7) has that entry overwritten by the projection — its
original value is not preserved. -/
theorem FitMask.latent_projection_overwrite_cex :
    FitMask.lget
        [("samples", FitMask.LVal.tensor ⟨[1, 4, 2, 2], List.replicate 16 0⟩),
         ("noise_mask", FitMask.LVal.nat 7)] "noise_mask"
      = some (FitMask.LVal.nat 7) ∧
    FitMask.applyMaskToLatent
        [("samples", FitMask.LVal.tensor ⟨[1, 4, 2, 2], List.replicate 16 0⟩),
         ("noise_mask", FitMask.LVal.nat 7)] ⟨[1, 2, 2], [1, 1, 1, 1]⟩
      = .ok [("samples",
              FitMask.LVal.tensor ⟨[1, 4, 2, 2], List.replicate 16 0⟩),
             ("noise_mask",
              FitMask.LVal.tensor ⟨[1, 2, 2], [1, 1, 1, 1]⟩)] :=
  ⟨rfl, rfl⟩

/-- C7 (amended): with a "samples" tensor present, Latent-Space Mask
Projection returns a new structure in which every original key other than
"noise_mask" keeps its original value, and "noise_mask" is set to the mask
resampled to exactly the samples entry's actual spatial axes
(latent_height, latent_width); a pre-existing "noise_mask" value is
overwritten (see the counterexample).  The caller's structure is a pure
value here, so it is trivially unmodified; the result is built from a
copy. -/
theorem FitMask.latent_projection_contract (l : FitMask.Latent)
    (samples : FitMask.Tensor) (lb lc lh lw mb mh mw : ℕ) (dm : List ℚ)
    (hs : FitMask.lget l "samples" = some (.tensor samples))
    (hss : samples.shape = [lb, lc, lh, lw])
    (h1 : 0 < mh) (h2 : 0 < mw) (h3 : 0 < lh) (h4 : 0 < lw) :
    ∃ m l', FitMask.applyMaskToLatent l ⟨[mb, mh, mw], dm⟩ = .ok l'
      ∧ FitMask.scaleMaskForLatent ⟨[mb, mh, mw], dm⟩ lh lw = .ok m
      ∧ m.shape = [mb, lh, lw]
      ∧ FitMask.lget l' "noise_mask" = some (.tensor m)
      ∧ ∀ k, k ≠ "noise_mask" → FitMask.lget l' k = FitMask.lget l k := by
  obtain ⟨m, hm, hmsh⟩ :=
    FitMask.scaleMaskForLatent_ok mb mh mw lh lw dm h1 h2 h3 h4
  refine ⟨m, FitMask.lset l "noise_mask" (.tensor m), ?_, hm, hmsh,
    FitMask.lget_lset_self l "noise_mask" (.tensor m),
    fun k hk => FitMask.lget_lset_other l "noise_mask" k (.tensor m) hk⟩
  unfold FitMask.applyMaskToLatent
  rw [hs]
  simp [hss, hm, bind, Except.bind]

/-- Witness for C7: a 1×4×4 unit mask against a latent whose samples are
1×4×2×2 projects to a 1×2×2 noise mask, leaving the other key "foo"
untouched. -/
theorem FitMask.latent_projection_contract_witness :
    ∃ m l', FitMask.applyMaskToLatent
        [("samples", FitMask.LVal.tensor ⟨[1, 4, 2, 2], List.replicate 16 0⟩),
         ("foo", FitMask.LVal.nat 5)] ⟨[1, 4, 4], List.replicate 16 1⟩
        = .ok l'
      ∧ FitMask.scaleMaskForLatent ⟨[1, 4, 4], List.replicate 16 1⟩ 2 2
        = .ok m
      ∧ m.shape = [1, 2, 2]
      ∧ FitMask.lget l' "noise_mask" = some (.tensor m)
      ∧ ∀ k, k ≠ "noise_mask" →
          FitMask.lget l' k = FitMask.lget
            [("samples",
              FitMask.LVal.tensor ⟨[1, 4, 2, 2], List.replicate 16 0⟩),
             ("foo", FitMask.LVal.nat 5)] k :=
  FitMask.latent_projection_contract
    [("samples", FitMask.LVal.tensor ⟨[1, 4, 2, 2], List.replicate 16 0⟩),
     ("foo", FitMask.LVal.nat 5)]
    ⟨[1, 4, 2, 2], List.replicate 16 0⟩ 1 4 2 2 1 4 4 (List.replicate 16 1)
    rfl rfl (by norm_num) (by norm_num) (by norm_num) (by norm_num)

namespace FitMask

/-- Every failure of `interpolate` is a library-level `runtimeError`. -/
lemma interpolate_err {t : Tensor} {oh ow : ℕ} {mode : String} {e : Err}
    (h : interpolate t oh ow mode = .error e) : e = .runtimeError := by
  unfold interpolate at h
  split at h
  · split at h
    · split at h
      · exact Except.noConfusion h
      · cases h
        rfl
    · cases h
      rfl
  · cases h
    rfl

/-- Every failure of `_scale_mask_for_latent` is a library-level
`runtimeError` (never `LatentFormatError`). -/
lemma scaleMaskForLatent_err {mask : Tensor} {th tw : ℕ} {e : Err}
    (h : scaleMaskForLatent mask th tw = .error e) : e = .runtimeError := by
  unfold scaleMaskForLatent at h
  split at h
  · split at h
    · exact Except.noConfusion h
    · split at h
      · rcases hi : interpolate (unsqueeze1 mask) th tw "nearest-exact"
          with e' | s
        · rw [hi] at h
          have he' : e' = .runtimeError := interpolate_err hi
          cases h
          exact he'
        · rw [hi] at h
          exact Except.noConfusion h
      · cases h
        rfl
  · cases h
    rfl

/-- `_apply_mask_to_latent` never raises `LatentFormatError` when a
"samples" entry is present — whatever its shape or type. -/
lemma applyMask_no_latentErr (l : Latent) (mask : Tensor) (v : LVal)
    (hv : lget l "samples" = some v) :
    applyMaskToLatent l mask ≠ .error .latentFormatError := by
  unfold applyMaskToLatent
  rw [hv]
  cases v with
  | tensor s =>
      cases hg2 : s.shape[2]? with
      | none => simp [hg2]
      | some lh =>
          cases hg3 : s.shape[3]? with
          | none => simp [hg2, hg3]
          | some lw =>
              simp only [hg2, hg3]
              rcases hsc : scaleMaskForLatent mask lh lw with e | m
              · have he : e = .runtimeError := scaleMaskForLatent_err hsc
                simp [hg2, hg3, hsc, he, bind, Except.bind]
              · simp [hg2, hg3, hsc, bind, Except.bind]
  | str s => simp
  | nat n => simp

end FitMask

/-- C8: with conforming image and mask (so the pipeline reaches stage 7)
and a latent supplied, the invocation fails with `LatentFormatError`
precisely when the latent lacks a "samples" entry; the `Except` result
carries no partial outputs on any error. -/
theorem FitMask.latent_format_error_iff (b h w c : ℕ) (di dm : List ℚ)
    (l : FitMask.Latent) (hc : c = 3 ∨ c = 4)
    (hwf : dm.length = b * h * w) :
    (FitMask.fixMaskDimensions ⟨[b, h, w, c], di⟩ ⟨[b, h, w], dm⟩ (some l)
        = .error .latentFormatError
      ↔ FitMask.lget l "samples" = none) := by
  obtain ⟨p, hp0⟩ := FitMask.pipeline_eval b h w c di dm [b, h, w] (some l)
    hc (Or.inl rfl) hwf
  have hp : FitMask.fixMaskDimensions ⟨[b, h, w, c], di⟩ ⟨[b, h, w], dm⟩
      (some l)
      = (FitMask.applyMaskToLatent l
          ⟨[b, h, w], dm.map FitMask.clamp1⟩).bind (fun ml =>
        .ok (⟨[b, h, w], dm.map FitMask.clamp1⟩, p,
          FitMask.generateInfo w h w h true, some ml)) := hp0
  rw [hp]
  constructor
  · intro he
    rcases ho : FitMask.lget l "samples" with _ | v
    · rfl
    · exfalso
      rcases happ : FitMask.applyMaskToLatent l
          ⟨[b, h, w], dm.map FitMask.clamp1⟩ with e | ml
      · rw [happ] at he
        have : e = FitMask.Err.latentFormatError := by
          cases he
          rfl
        exact FitMask.applyMask_no_latentErr l _ v ho (this ▸ happ)
      · rw [happ] at he
        exact Except.noConfusion he
  · intro hnone
    have happ : FitMask.applyMaskToLatent l
        ⟨[b, h, w], dm.map FitMask.clamp1⟩ = .error .latentFormatError := by
      unfold FitMask.applyMaskToLatent
      rw [hnone]
    rw [happ]
    rfl

/-- Witness for C8: a latent with only a "foo" key makes the whole
pipeline abort with `LatentFormatError`. -/
theorem FitMask.latent_format_error_iff_witness :
    FitMask.fixMaskDimensions ⟨[1, 1, 1, 3], [0, 0, 0]⟩ ⟨[1, 1, 1], [1]⟩
        (some [("foo", FitMask.LVal.nat 5)])
      = .error .latentFormatError :=
  (FitMask.latent_format_error_iff 1 1 1 3 [0, 0, 0] [1]
    [("foo", FitMask.LVal.nat 5)] (Or.inl rfl) (by decide)).mpr rfl
